import Mathlib

/-!
Verification of the TaShan-SciSpark task-lifecycle core.

This file shallowly embeds the relevant parts of `src/mcp_server.py`
(the `TaskManager` class and the MCP tool functions built on it) and of
`src/app/api/common.py` (the streaming error response generator), and
proves the spec's claims about them.

Conventions of the embedding:
- Python dicts with string keys become association lists in insertion
  order (`List (String × _)`); Python dict assignment `d[k] = v` is
  `dictInsert` (replace in place when the key exists, append otherwise).
- Python's `None` and JSON values become the inductive `Value`.
- The wall clock (`datetime.now()`) is an explicit `Nat` argument.
- Mutation of `self.tasks` becomes explicit state passing.
-/

namespace SciSpark

/-- JSON-like values: the payloads stored in task records and returned by
tools (`params`, `result`, `error`, and formatted paper fields). -/
inductive Value where
  | null
  | bool (b : Bool)
  | num (n : Int)
  | str (s : String)
  | list (xs : List Value)
  | obj (kvs : List (String × Value))
deriving Repr

/-- Decimal digit characters of `n`, most significant first, by fuel
recursion (`fuel ≥ n` suffices since `n / 10 < n` for `n > 0`). -/
def natStrAux : Nat → Nat → List Char
  | 0, _ => []
  | _ + 1, 0 => []
  | fuel + 1, n + 1 => natStrAux fuel ((n + 1) / 10) ++ [Nat.digitChar ((n + 1) % 10)]

/-- Model of Python `str(n)` for a nonnegative integer `n`: its decimal
representation. -/
def natStr (n : Nat) : String := if n = 0 then "0" else String.mk (natStrAux n n)

/-- Model of the f-string id `f"task_\x7blen(self.tasks) + 1\x7d_\x7bint(datetime.now().timestamp())\x7d"`
of `TaskManager.create_task`. -/
def mkTaskId (counter ts : Nat) : String :=
  "task_" ++ natStr counter ++ "_" ++ natStr ts

/-- One task record, with the exact fields stored by
`TaskManager.create_task` in `src/mcp_server.py`. -/
structure Task where
  id : String
  type : String
  status : String
  params : Value
  created_at : Nat
  updated_at : Nat
  result : Value
  error : Value
  progress : Nat
deriving Repr

/-- The task registry: `self.tasks`, a Python dict in insertion order. -/
structure TaskManager where
  tasks : List (String × Task)
deriving Repr

/-- Python dict assignment `d[k] = v`: overwrite in place when `k` is
present, append otherwise. -/
def dictInsert (l : List (String × Task)) (k : String) (v : Task) : List (String × Task) :=
  if l.any (fun p => p.1 = k) then
    l.map (fun p => if p.1 = k then (k, v) else p)
  else l ++ [(k, v)]

/-- The record stored by `create_task`: the dict literal of
`src/mcp_server.py` lines 66-76. -/
def newRecord (task_id task_type : String) (params : Value) (now : Nat) : Task :=
  { id := task_id
    type := task_type
    status := "pending"
    params := params
    created_at := now
    updated_at := now
    result := Value.null
    error := Value.null
    progress := 0 }

/-- `TaskManager.create_task`: allocate the id from the current registry
size and the clock, store a fresh pending record, return the id. -/
def TaskManager.create_task (tm : TaskManager) (task_type : String) (params : Value)
    (now : Nat) : String × TaskManager :=
  let task_id := mkTaskId (tm.tasks.length + 1) now
  (task_id, ⟨dictInsert tm.tasks task_id (newRecord task_id task_type params now)⟩)

/-- `TaskManager.get_task`: dict lookup, `None` when absent. -/
def TaskManager.get_task (tm : TaskManager) (task_id : String) : Option Task :=
  (tm.tasks.find? (fun p => p.1 = task_id)).map (fun p => p.2)

/-- The field overwrite performed by `update_task` on an existing record:
the `dict.update` literal of `src/mcp_server.py` lines 86-92. -/
def updatedRecord (t : Task) (status : String) (result error : Value) (now : Nat) : Task :=
  { t with
    status := status
    updated_at := now
    result := result
    error := error
    progress := if status = "completed" then 100 else if status = "running" then 50 else 0 }

/-- `TaskManager.update_task`: when the id exists, overwrite status,
result, error, the update timestamp, and the progress derived from the
status; silently do nothing otherwise. -/
def TaskManager.update_task (tm : TaskManager) (task_id status : String)
    (result error : Value) (now : Nat) : TaskManager :=
  if tm.tasks.any (fun p => p.1 = task_id) then
    ⟨tm.tasks.map (fun p =>
      if p.1 = task_id then (p.1, updatedRecord p.2 status result error now) else p)⟩
  else tm

/-! Lemmas about the decimal representation and task-id freshness. -/

theorem digitChar_ne_underscore : ∀ d < 10, Nat.digitChar d ≠ '_' := by decide

theorem digitChar_injOn : ∀ a < 10, ∀ b < 10, Nat.digitChar a = Nat.digitChar b → a = b := by
  decide

theorem map_digitChar_inj : ∀ {l₁ l₂ : List Nat}, (∀ d ∈ l₁, d < 10) → (∀ d ∈ l₂, d < 10) →
    l₁.map Nat.digitChar = l₂.map Nat.digitChar → l₁ = l₂ := by
  intro l₁
  induction l₁ with
  | nil => intro l₂ _ _ h; cases l₂ <;> simp_all
  | cons a t ih =>
    intro l₂ h₁ h₂ h
    cases l₂ with
    | nil => simp_all
    | cons b t₂ =>
      simp only [List.map_cons, List.cons.injEq] at h
      have hab : a = b := digitChar_injOn a (h₁ a (by simp)) b (h₂ b (by simp)) h.1
      have ht : t = t₂ :=
        ih (fun d hd => h₁ d (by simp [hd])) (fun d hd => h₂ d (by simp [hd])) h.2
      simp [hab, ht]

theorem natStrAux_eq_digits : ∀ (fuel n : Nat), n ≤ fuel →
    natStrAux fuel n = ((Nat.digits 10 n).map Nat.digitChar).reverse := by
  intro fuel
  induction fuel with
  | zero =>
    intro n h
    interval_cases n
    simp [natStrAux]
  | succ f ih =>
    intro n h
    cases n with
    | zero => simp [natStrAux]
    | succ m =>
      have hdiv : (m + 1) / 10 < m + 1 := Nat.div_lt_self (Nat.succ_pos m) (by norm_num)
      rw [natStrAux, ih ((m + 1) / 10) (by omega),
        @Nat.digits_def' 10 (by norm_num) (m + 1) (Nat.succ_pos m)]
      simp

theorem natStr_data_eq (n : Nat) :
    (natStr n).data =
      if n = 0 then ['0'] else ((Nat.digits 10 n).map Nat.digitChar).reverse := by
  by_cases h : n = 0
  · simp [natStr, h]
  · simp [natStr, h, natStrAux_eq_digits n n (le_refl n)]

theorem underscore_not_mem_natStr (n : Nat) : '_' ∉ (natStr n).data := by
  rw [natStr_data_eq]
  by_cases h : n = 0
  · simp [h]
  · simp only [h, if_false, List.mem_reverse, List.mem_map, not_exists]
    intro d
    intro hcontra
    exact digitChar_ne_underscore d (Nat.digits_lt_base (by norm_num) hcontra.1) hcontra.2

theorem map_digitChar_eq_zero_char {l : List Nat} (hl : ∀ d ∈ l, d < 10)
    (h : l.map Nat.digitChar = ['0']) : l = [0] := by
  cases l with
  | nil => simp at h
  | cons d t =>
    simp only [List.map_cons, List.cons.injEq] at h
    have ht : t = [] := by simpa using h.2
    have hd0 : d = 0 := digitChar_injOn d (hl d (by simp)) 0 (by norm_num) (by simpa using h.1)
    simp [hd0, ht]

theorem digits_ten_eq_zero_list {n : Nat} (h : Nat.digits 10 n = [0]) : n = 0 := by
  have := Nat.ofDigits_digits 10 n
  rw [h] at this
  simpa [Nat.ofDigits] using this.symm

theorem natStr_injective : ∀ a b : Nat, natStr a = natStr b → a = b := by
  intro a b h
  have hd := congrArg String.data h
  rw [natStr_data_eq, natStr_data_eq] at hd
  by_cases ha : a = 0 <;> by_cases hb : b = 0
  · omega
  · exfalso
    simp only [ha, if_true, hb, if_false] at hd
    have hmap : (Nat.digits 10 b).map Nat.digitChar = ['0'] := by
      have := congrArg List.reverse hd
      simpa using this.symm
    exact hb (digits_ten_eq_zero_list
      (map_digitChar_eq_zero_char (fun d hdm => Nat.digits_lt_base (by norm_num) hdm) hmap))
  · exfalso
    simp only [ha, if_false, hb, if_true] at hd
    have hmap : (Nat.digits 10 a).map Nat.digitChar = ['0'] := by
      have := congrArg List.reverse hd
      simpa using this
    exact ha (digits_ten_eq_zero_list
      (map_digitChar_eq_zero_char (fun d hdm => Nat.digits_lt_base (by norm_num) hdm) hmap))
  · simp only [ha, if_false, hb, if_false] at hd
    have hmap := List.reverse_injective hd
    have hdig := map_digitChar_inj
      (fun d hdm => Nat.digits_lt_base (by norm_num) hdm)
      (fun d hdm => Nat.digits_lt_base (by norm_num) hdm) hmap
    exact Nat.digits.injective 10 hdig

theorem append_sep_inj : ∀ {a b u v : List Char}, '_' ∉ a → '_' ∉ b →
    a ++ '_' :: u = b ++ '_' :: v → a = b ∧ u = v := by
  intro a
  induction a with
  | nil =>
    intro b u v _ hb h
    cases b with
    | nil => simpa using h
    | cons c t =>
      exfalso
      simp only [List.nil_append, List.cons_append, List.cons.injEq] at h
      exact hb (List.mem_cons.mpr (Or.inl h.1))
  | cons c t ih =>
    intro b u v ha hb h
    cases b with
    | nil =>
      exfalso
      simp only [List.cons_append, List.nil_append, List.cons.injEq] at h
      exact ha (List.mem_cons.mpr (Or.inl h.1.symm))
    | cons c' t' =>
      simp only [List.cons_append, List.cons.injEq] at h
      have := ih (fun hm => ha (by simp [hm])) (fun hm => hb (by simp [hm])) h.2
      simp [h.1, this.1, this.2]

theorem mkTaskId_data (k ts : Nat) :
    (mkTaskId k ts).data =
      't' :: 'a' :: 's' :: 'k' :: '_' :: ((natStr k).data ++ '_' :: (natStr ts).data) := by
  show ((("task_" ++ natStr k) ++ "_") ++ natStr ts).data = _
  have h1 : ∀ a b : String, (a ++ b).data = a.data ++ b.data := fun _ _ => rfl
  rw [h1, h1, h1]
  simp

/-- Distinct counters give distinct task ids, whatever the timestamps. -/
theorem mkTaskId_ne {a b : Nat} (ta tb : Nat) (h : a ≠ b) : mkTaskId a ta ≠ mkTaskId b tb := by
  intro hEq
  have hd := congrArg String.data hEq
  rw [mkTaskId_data, mkTaskId_data] at hd
  simp only [List.cons.injEq, true_and] at hd
  have := append_sep_inj (underscore_not_mem_natStr a) (underscore_not_mem_natStr b) hd
  exact h (natStr_injective a b (by
    have := this.1
    exact congrArg String.mk this))

/-! Registry key invariant: entries carry consecutive id counters. -/

/-- The keys of the registry suffix `l`, in order, are `mkTaskId (n+1) _`,
`mkTaskId (n+2) _`, and so on: each entry's id records its 1-based
insertion position. -/
def goodKeys : Nat → List (String × Task) → Prop
  | _, [] => True
  | n, e :: rest => (∃ ts, e.1 = mkTaskId (n + 1) ts) ∧ goodKeys (n + 1) rest

/-- Every reachable registry satisfies `goodKeys 0`. -/
def goodState (tm : TaskManager) : Prop := goodKeys 0 tm.tasks

theorem goodKeys_mem_counter : ∀ (n : Nat) (l : List (String × Task)), goodKeys n l →
    ∀ k ∈ l.map Prod.fst, ∃ j ts, n < j ∧ j ≤ n + l.length ∧ k = mkTaskId j ts := by
  intro n l
  induction l generalizing n with
  | nil => simp
  | cons e rest ih =>
    intro hg k hk
    rcases hg with ⟨⟨ts, hts⟩, hrest⟩
    rw [List.map_cons] at hk
    rcases List.mem_cons.mp hk with h | h
    · exact ⟨n + 1, ts, by omega, by simp, by rw [h, hts]⟩
    · rcases ih (n + 1) hrest k (by simpa using h) with ⟨j, ts', hj1, hj2, hEq⟩
      exact ⟨j, ts', by omega, by simp; omega, hEq⟩

/-- A task id built from a counter above every counter in the registry is
not among the registry's keys. -/
theorem goodKeys_fresh {n : Nat} {l : List (String × Task)} (hg : goodKeys n l)
    {m : Nat} (ts : Nat) (hm : n + l.length < m) : mkTaskId m ts ∉ l.map Prod.fst := by
  intro hmem
  rcases goodKeys_mem_counter n l hg _ hmem with ⟨j, ts', _, hj2, hEq⟩
  exact mkTaskId_ne ts ts' (by omega) hEq

theorem goodKeys_nodup : ∀ (n : Nat) (l : List (String × Task)), goodKeys n l →
    (l.map Prod.fst).Nodup := by
  intro n l
  induction l generalizing n with
  | nil => simp
  | cons e rest ih =>
    intro hg
    rcases hg with ⟨⟨ts, hts⟩, hrest⟩
    refine List.nodup_cons.mpr ⟨?_, ih (n + 1) hrest⟩
    intro hmem
    rcases goodKeys_mem_counter (n + 1) rest hrest _ hmem with ⟨j, ts', hj1, _, hEq⟩
    exact mkTaskId_ne (a := n + 1) ts ts' (by omega) (hts ▸ hEq)

theorem goodKeys_append {n : Nat} {l : List (String × Task)} (hg : goodKeys n l)
    (k : String) (v : Task) (ts : Nat) (hk : k = mkTaskId (n + l.length + 1) ts) :
    goodKeys n (l ++ [(k, v)]) := by
  induction l generalizing n with
  | nil => exact ⟨⟨ts, by simpa using hk⟩, trivial⟩
  | cons e rest ih =>
    rcases hg with ⟨he, hrest⟩
    refine ⟨he, ih hrest ?_⟩
    rw [hk]
    have harg : n + (e :: rest).length + 1 = n + 1 + rest.length + 1 := by
      rw [List.length_cons]; omega
    rw [harg]

theorem dictInsert_of_not_mem {l : List (String × Task)} {k : String} (v : Task)
    (hk : k ∉ l.map Prod.fst) : dictInsert l k v = l ++ [(k, v)] := by
  have : l.any (fun p => p.1 = k) = false := by
    simp only [List.any_eq_false, decide_eq_true_eq]
    intro p hp hcontra
    exact hk (hcontra ▸ List.mem_map_of_mem Prod.fst hp)
  simp [dictInsert, this]

/-- In a well-formed registry the id allocated by `create_task` is fresh. -/
theorem create_task_id_fresh {tm : TaskManager} (hg : goodState tm)
    (ty : String) (ps : Value) (now : Nat) :
    (tm.create_task ty ps now).1 ∉ tm.tasks.map Prod.fst :=
  goodKeys_fresh hg now (by omega)

/-- In a well-formed registry `create_task` appends a brand-new record. -/
theorem create_task_tasks_eq {tm : TaskManager} (hg : goodState tm)
    (ty : String) (ps : Value) (now : Nat) :
    (tm.create_task ty ps now).2.tasks =
      tm.tasks ++ [((tm.create_task ty ps now).1,
        newRecord (tm.create_task ty ps now).1 ty ps now)] := by
  exact dictInsert_of_not_mem _ (create_task_id_fresh hg ty ps now)

theorem create_task_goodState {tm : TaskManager} (hg : goodState tm)
    (ty : String) (ps : Value) (now : Nat) : goodState (tm.create_task ty ps now).2 := by
  show goodKeys 0 _
  rw [create_task_tasks_eq hg ty ps now]
  exact goodKeys_append hg _ _ now (by simp [TaskManager.create_task])

/-! Behaviour of `get_task` under `create_task` and `update_task`. -/

theorem find?_map_fst_preserving (g : String × Task → String × Task)
    (hgp : ∀ p, (g p).1 = p.1) (k : String) :
    ∀ l : List (String × Task),
      (l.map g).find? (fun p => p.1 = k) = (l.find? (fun p => p.1 = k)).map g := by
  intro l
  induction l with
  | nil => rfl
  | cons p t ih =>
    by_cases h : p.1 = k
    · rw [List.map_cons, List.find?_cons_of_pos _ (by simp [hgp, h]),
        List.find?_cons_of_pos _ (by simp [h]), Option.map_some']
    · rw [List.map_cons, List.find?_cons_of_neg _ (by simp [hgp, h]),
        List.find?_cons_of_neg _ (by simp [h]), ih]

theorem update_task_map_fst (tm : TaskManager) (tid st : String) (res err : Value)
    (now : Nat) :
    (tm.update_task tid st res err now).tasks.map Prod.fst = tm.tasks.map Prod.fst := by
  unfold TaskManager.update_task
  by_cases h : tm.tasks.any (fun p => p.1 = tid) = true
  · simp only [h, if_true]
    rw [List.map_map]
    congr 1
    funext p
    by_cases hp : p.1 = tid <;> simp [hp]
  · simp [h]

theorem goodKeys_of_map_fst_eq : ∀ (n : Nat) (l₁ l₂ : List (String × Task)),
    l₁.map Prod.fst = l₂.map Prod.fst → goodKeys n l₁ → goodKeys n l₂ := by
  intro n l₁
  induction l₁ generalizing n with
  | nil =>
    intro l₂ h _
    cases l₂ with
    | nil => trivial
    | cons e t => simp at h
  | cons e t ih =>
    intro l₂ h hg
    cases l₂ with
    | nil => simp at h
    | cons e₂ t₂ =>
      simp only [List.map_cons, List.cons.injEq] at h
      exact ⟨h.1 ▸ hg.1, ih (n + 1) t₂ h.2 hg.2⟩

theorem update_task_goodState {tm : TaskManager} (hg : goodState tm)
    (tid st : String) (res err : Value) (now : Nat) :
    goodState (tm.update_task tid st res err now) :=
  goodKeys_of_map_fst_eq 0 _ _ (update_task_map_fst tm tid st res err now).symm hg

theorem get_task_eq_none_iff (tm : TaskManager) (tid : String) :
    tm.get_task tid = none ↔ tid ∉ tm.tasks.map Prod.fst := by
  unfold TaskManager.get_task
  rw [Option.map_eq_none', List.find?_eq_none]
  constructor
  · intro h hmem
    rcases List.mem_map.mp hmem with ⟨p, hp, hfst⟩
    exact h p hp (by simp [hfst])
  · intro h p hp
    simp only [decide_eq_true_eq]
    intro hfst
    exact h (hfst ▸ List.mem_map_of_mem Prod.fst hp)

/-- `update_task` on an id absent from the registry is a no-op. -/
theorem update_task_absent {tm : TaskManager} {tid : String}
    (h : tm.get_task tid = none) (st : String) (res err : Value) (now : Nat) :
    tm.update_task tid st res err now = tm := by
  have hmem := (get_task_eq_none_iff tm tid).mp h
  have hany : tm.tasks.any (fun p => p.1 = tid) = false := by
    rw [List.any_eq_false]
    intro p hp
    simp only [decide_eq_true_eq]
    intro hfst
    exact hmem (hfst ▸ List.mem_map_of_mem Prod.fst hp)
  simp [TaskManager.update_task, hany]

theorem update_task_get_found {tm : TaskManager} {tid : String} {t : Task}
    (h : tm.get_task tid = some t) (st : String) (res err : Value) (now : Nat) :
    (tm.update_task tid st res err now).get_task tid = some (updatedRecord t st res err now) := by
  obtain ⟨p, hfind, hsnd⟩ : ∃ p, tm.tasks.find? (fun q => q.1 = tid) = some p ∧ p.2 = t := by
    unfold TaskManager.get_task at h
    cases hf : tm.tasks.find? (fun q => q.1 = tid) with
    | none => rw [hf] at h; simp at h
    | some p => rw [hf] at h; exact ⟨p, rfl, by simpa using h⟩
  have hp1 : p.1 = tid := by simpa using List.find?_some hfind
  have hany : tm.tasks.any (fun q => q.1 = tid) = true := by
    rw [List.any_eq_true]
    exact ⟨p, List.mem_of_find?_eq_some hfind, by simp [hp1]⟩
  unfold TaskManager.update_task TaskManager.get_task
  simp only [hany, if_true]
  rw [find?_map_fst_preserving _ (fun q => by by_cases hq : q.1 = tid <;> simp [hq]) tid,
    hfind]
  simp [hp1, hsnd, updatedRecord]

/-- Frame property of `update_task`: tasks with a different id are untouched. -/
theorem update_task_get_other (tm : TaskManager) (tid st : String) (res err : Value)
    (now : Nat) (k : String) (hk : k ≠ tid) :
    (tm.update_task tid st res err now).get_task k = tm.get_task k := by
  unfold TaskManager.update_task
  by_cases h : tm.tasks.any (fun p => p.1 = tid) = true
  · simp only [h, if_true]
    unfold TaskManager.get_task
    rw [find?_map_fst_preserving _ (fun q => by by_cases hq : q.1 = tid <;> simp [hq]) k]
    cases hf : tm.tasks.find? (fun p => p.1 = k) with
    | none => simp
    | some p =>
      have hp1 : p.1 = k := by simpa using List.find?_some hf
      have hne : ¬ p.1 = tid := by rw [hp1]; exact hk
      simp [hne]
  · simp [h]

/-- Looking up the id returned by `create_task` finds the fresh pending
record, in any starting registry. -/
theorem create_task_get_new (tm : TaskManager) (ty : String) (ps : Value) (now : Nat) :
    (tm.create_task ty ps now).2.get_task (tm.create_task ty ps now).1 =
      some (newRecord (tm.create_task ty ps now).1 ty ps now) := by
  unfold TaskManager.create_task
  simp only []
  set tid := mkTaskId (tm.tasks.length + 1) now with htid
  unfold TaskManager.get_task dictInsert
  by_cases h : tm.tasks.any (fun p => p.1 = tid) = true
  · simp only [h, if_true]
    rw [find?_map_fst_preserving (fun p => if p.1 = tid then (tid, newRecord tid ty ps now) else p)
      (fun q => by by_cases hq : q.1 = tid <;> simp [hq]) tid]
    obtain ⟨p, hp, hptid⟩ := List.any_eq_true.mp h
    cases hf : tm.tasks.find? (fun p => p.1 = tid) with
    | none =>
      rw [List.find?_eq_none] at hf
      exact absurd hptid (hf p hp)
    | some q =>
      have hq1 : q.1 = tid := by simpa using List.find?_some hf
      simp [hq1]
  · have hfalse : tm.tasks.any (fun p => p.1 = tid) = false := Bool.eq_false_iff.mpr h
    simp only [hfalse, Bool.false_eq_true, if_false]
    rw [List.find?_append]
    have hnone : tm.tasks.find? (fun p => p.1 = tid) = none := by
      rw [List.find?_eq_none]
      intro x hx
      exact (List.any_eq_false.mp hfalse) x hx
    rw [hnone]
    simp

/-! The MCP tool layer of `src/mcp_server.py`. -/

/-- Response shape of the `get_task_status` tool: the `task` field is the
dict literal of lines 271-279 (note it has no `result` key). -/
structure GetTaskStatusResult where
  success : Bool
  message : String
  task : Option (List (String × Value))
deriving Repr

/-- The `get_task_status` MCP tool. -/
def get_task_status (tm : TaskManager) (task_id : String) : GetTaskStatusResult :=
  match tm.get_task task_id with
  | none =>
    { success := false, message := "未找到任务: " ++ task_id, task := none }
  | some task =>
    { success := true
      message := "任务状态获取成功"
      task := some
        [("id", Value.str task.id),
         ("type", Value.str task.type),
         ("status", Value.str task.status),
         ("progress", Value.num (Int.ofNat task.progress)),
         ("created_at", Value.num (Int.ofNat task.created_at)),
         ("updated_at", Value.num (Int.ofNat task.updated_at)),
         ("error", task.error)] }

/-- Response shape of the `search_papers` tool. -/
structure SearchPapersResult where
  success : Bool
  message : String
  papers : List (List (String × Value))
deriving Repr

/-- The `paper.get(key, default)` formatting loop of `search_papers`
(lines 123-133): each raw paper dict becomes a dict with these six keys. -/
def formatPaper (p : List (String × Value)) : List (String × Value) :=
  [("title", (p.lookup ("title")).getD (Value.str (""))),
   ("authors", (p.lookup ("authors")).getD (Value.list [])),
   ("abstract", (p.lookup ("abstract")).getD (Value.str (""))),
   ("published", (p.lookup ("published")).getD (Value.str (""))),
   ("url", (p.lookup ("url")).getD (Value.str (""))),
   ("pdf_url", (p.lookup ("pdf_url")).getD (Value.str ("")))]

/-- The `search_papers` MCP tool. The `search_paper` collaborator is a
parameter; outcome `.error e` models the collaborator raising exception
`e`, which the tool's `try/except` turns into a failure response. -/
def search_papers
    (search_paper : String → Int → Except String (List (List (String × Value))))
    (keyword : String) (limit : Int) : SearchPapersResult :=
  match search_paper keyword limit with
  | Except.error e =>
    { success := false, message := "搜索论文时出错: " ++ e, papers := [] }
  | Except.ok papers =>
    if papers.isEmpty then
      { success := false, message := "未找到相关论文", papers := [] }
    else
      { success := true
        message := "成功搜索到 " ++ natStr (papers.map formatPaper).length ++ " 篇论文"
        papers := papers.map formatPaper }

/-- Python truthiness of a JSON-like value (`if not compressed_result`). -/
def isFalsy : Value → Bool
  | Value.null => true
  | Value.bool b => !b
  | Value.num n => n = 0
  | Value.str s => s.isEmpty
  | Value.list xs => xs.isEmpty
  | Value.obj kvs => kvs.isEmpty

/-- Response shape of the `compress_paper_content` tool. -/
structure CompressResult where
  success : Bool
  message : String
  compressed_content : Value
deriving Repr

/-- The `compress_paper_content` MCP tool, with the `paper_compression`
collaborator as a parameter (`.error` models a raised exception). -/
def compress_paper_content
    (paper_compression : String → String → String → Except String Value)
    (title abstract content : String) : CompressResult :=
  match paper_compression title abstract content with
  | Except.error e =>
    { success := false, message := "压缩时出错: " ++ e, compressed_content := Value.null }
  | Except.ok r =>
    if isFalsy r then
      { success := false, message := "压缩失败", compressed_content := Value.null }
    else
      { success := true, message := "压缩完成", compressed_content := r }

/-! The streaming error response of `src/app/api/common.py`. -/

mutual
/-- Model of Python `json.dumps(v, ensure_ascii=False)` with the default
separators `", "` and `": "`. -/
def dumps : Value → String
  | Value.null => "null"
  | Value.bool b => if b then "true" else "false"
  | Value.num n => toString n
  | Value.str s => "\"" ++ s ++ "\""
  | Value.list xs => "[" ++ String.intercalate (", ") (dumpsList xs) ++ "]"
  | Value.obj kvs => "\x7b" ++ String.intercalate (", ") (dumpsObj kvs) ++ "\x7d"

/-- Serializations of the elements of a JSON array. -/
def dumpsList : List Value → List String
  | [] => []
  | x :: xs => dumps x :: dumpsList xs

/-- Serializations of the key-value pairs of a JSON object. -/
def dumpsObj : List (String × Value) → List String
  | [] => []
  | kv :: kvs => ("\"" ++ kv.1 ++ "\": " ++ dumps kv.2) :: dumpsObj kvs
end

/-- The `error_message` dict of `StreamAPIResponse.error_stream_gen`. -/
def error_message : Value :=
  Value.obj [("choices", Value.list [Value.obj [("delta", Value.obj
    [("role", Value.str ("assistant")),
     ("content", Value.str ("当前操作无法完成，请稍后再试"))])]])]

/-- `StreamAPIResponse.error_stream_gen`: the complete, ordered sequence
of chunks the generator yields. -/
def error_stream_gen : List String :=
  ["data: " ++ dumps error_message ++ "\n\n",
   "data: [DONE]\n\n"]

/-! Dispatcher-driven system model: `generate_research_idea` creates a
pending task and schedules `_generate_research_idea_async`, which drives
the task through `running` and then `completed` or `failed`. -/

/-- Where a task's background unit stands: not yet scheduled onto the CPU,
past its `update_task(id, "running")` line, or done (terminal update issued). -/
inductive BgPhase where
  | notStarted
  | started
  | finished
deriving DecidableEq, Repr

/-- Registry plus the progress of each task's background unit. -/
structure SysState where
  tm : TaskManager
  bg : List (String × BgPhase)
deriving Repr

/-- The params dict passed by `generate_research_idea` to `create_task`. -/
def paramsOf (keyword : String) (paper_count : Int) : Value :=
  Value.obj [("keyword", Value.str keyword), ("paper_count", Value.num paper_count)]

/-- The `generate_research_idea` tool body: create the pending task and
schedule the background unit. -/
def dispatchCreate (s : SysState) (keyword : String) (paper_count : Int) (now : Nat) :
    SysState :=
  let r := s.tm.create_task ("generate_research_idea") (paramsOf keyword paper_count) now
  ⟨r.2, s.bg ++ [(r.1, BgPhase.notStarted)]⟩

/-- Phase of the background unit of task `tid` (model bookkeeping). -/
def phaseOf (s : SysState) (tid : String) : Option BgPhase :=
  (s.bg.find? (fun p => p.1 = tid)).map (fun p => p.2)

def setPhase (bg : List (String × BgPhase)) (tid : String) (ph : BgPhase) :
    List (String × BgPhase) :=
  bg.map (fun p => if p.1 = tid then (p.1, ph) else p)

/-- First line of `_generate_research_idea_async`: `update_task(task_id, "running")`. -/
def doStart (s : SysState) (tid : String) (now : Nat) : SysState :=
  ⟨s.tm.update_task tid ("running") Value.null Value.null now,
   setPhase s.bg tid BgPhase.started⟩

/-- Normal completion: `update_task(task_id, "completed", result)`. -/
def doComplete (s : SysState) (tid : String) (res : Value) (now : Nat) : SysState :=
  ⟨s.tm.update_task tid ("completed") res Value.null now,
   setPhase s.bg tid BgPhase.finished⟩

/-- The except branch: `update_task(task_id, "failed", error=error_msg)`. -/
def doFail (s : SysState) (tid : String) (msg : String) (now : Nat) : SysState :=
  ⟨s.tm.update_task tid ("failed") Value.null (Value.str msg) now,
   setPhase s.bg tid BgPhase.finished⟩

/-- One step of the system as the dispatcher drives it: a new
`generate_research_idea` call, or one of the three `update_task` calls a
background unit can make, in their program order. -/
inductive DStep : SysState → SysState → Prop where
  | createIdea (s : SysState) (kw : String) (pc : Int) (now : Nat) :
      DStep s (dispatchCreate s kw pc now)
  | bgStart (s : SysState) (tid : String) (now : Nat) :
      phaseOf s tid = some BgPhase.notStarted → DStep s (doStart s tid now)
  | bgComplete (s : SysState) (tid : String) (res : Value) (now : Nat) :
      phaseOf s tid = some BgPhase.started → DStep s (doComplete s tid res now)
  | bgFail (s : SysState) (tid : String) (msg : String) (now : Nat) :
      phaseOf s tid = some BgPhase.started → DStep s (doFail s tid msg now)

/-- The server starts with an empty registry and no background units. -/
def initState : SysState := ⟨⟨[]⟩, []⟩

/-- States reachable by the dispatcher. -/
inductive Reach : SysState → Prop where
  | init : Reach initState
  | step {s s' : SysState} : Reach s → DStep s s' → Reach s'

/-! The inductive invariant of dispatcher-reachable states. -/

/-- What a background unit's phase implies about its task's record. -/
def taskPhaseOk (ph : BgPhase) (t : Task) : Prop :=
  match ph with
  | BgPhase.notStarted => t.status = "pending" ∧ t.result = Value.null ∧ t.error = Value.null
  | BgPhase.started => t.status = "running" ∧ t.result = Value.null ∧ t.error = Value.null
  | BgPhase.finished =>
      (t.status = "completed" ∧ t.error = Value.null) ∨
      (t.status = "failed" ∧ t.result = Value.null)

/-- One background-unit entry matches one registry entry. -/
def Aligned (b : String × BgPhase) (e : String × Task) : Prop :=
  b.1 = e.1 ∧ taskPhaseOk b.2 e.2

/-- Invariant of dispatcher-reachable states: the registry is well formed
and each registry entry is tracked by exactly one background unit whose
phase matches the record. -/
def SysInv (s : SysState) : Prop :=
  goodState s.tm ∧ List.Forall₂ Aligned s.bg s.tm.tasks

theorem forall2_find?_bg_to_task :
    ∀ {bg : List (String × BgPhase)} {tasks : List (String × Task)},
    List.Forall₂ Aligned bg tasks → ∀ (tid : String) {b},
      bg.find? (fun p => p.1 = tid) = some b →
      ∃ e, tasks.find? (fun p => p.1 = tid) = some e ∧ Aligned b e := by
  intro bg tasks h
  induction h with
  | nil => intro tid b hb; simp at hb
  | @cons b e bt et hpair htail ih =>
    intro tid b' hb'
    by_cases hk : b.1 = tid
    · rw [List.find?_cons_of_pos _ (by simp [hk])] at hb'
      have he : e.1 = tid := hpair.1.symm.trans hk
      refine ⟨e, ?_, ?_⟩
      · rw [List.find?_cons_of_pos _ (by simp [he])]
      · cases hb'; exact hpair
    · have he : ¬ e.1 = tid := fun hc => hk (hpair.1.trans hc)
      rw [List.find?_cons_of_neg _ (by simp [hk])] at hb'
      rcases ih tid hb' with ⟨e', he', hal⟩
      exact ⟨e', by rw [List.find?_cons_of_neg _ (by simp [he])]; exact he', hal⟩

theorem forall2_find?_task_to_bg :
    ∀ {bg : List (String × BgPhase)} {tasks : List (String × Task)},
    List.Forall₂ Aligned bg tasks → ∀ (tid : String) {e},
      tasks.find? (fun p => p.1 = tid) = some e →
      ∃ b, bg.find? (fun p => p.1 = tid) = some b ∧ Aligned b e := by
  intro bg tasks h
  induction h with
  | nil => intro tid e he; simp at he
  | @cons b e bt et hpair htail ih =>
    intro tid e' he'
    by_cases hk : e.1 = tid
    · rw [List.find?_cons_of_pos _ (by simp [hk])] at he'
      have hb : b.1 = tid := hpair.1.trans hk
      refine ⟨b, ?_, ?_⟩
      · rw [List.find?_cons_of_pos _ (by simp [hb])]
      · cases he'; exact hpair
    · have hb : ¬ b.1 = tid := fun hc => hk (hpair.1.symm.trans hc)
      rw [List.find?_cons_of_neg _ (by simp [hk])] at he'
      rcases ih tid he' with ⟨b', hb', hal⟩
      exact ⟨b', by rw [List.find?_cons_of_neg _ (by simp [hb])]; exact hb', hal⟩

/-- After an entry-wise update that writes a record satisfying the new
phase whatever the old record was, alignment is preserved. -/
theorem forall2_setPhase_update :
    ∀ {bg : List (String × BgPhase)} {tasks : List (String × Task)},
    List.Forall₂ Aligned bg tasks → ∀ (tid : String) (ph : BgPhase) (f : Task → Task),
    (∀ t, taskPhaseOk ph (f t)) →
    List.Forall₂ Aligned (setPhase bg tid ph)
      (tasks.map (fun e => if e.1 = tid then (e.1, f e.2) else e)) := by
  intro bg tasks h
  induction h with
  | nil => intro tid ph f hf; exact List.Forall₂.nil
  | @cons b e bt et hpair htail ih =>
    intro tid ph f hf
    simp only [setPhase, List.map_cons]
    by_cases hk : b.1 = tid
    · have he : e.1 = tid := hpair.1.symm.trans hk
      rw [if_pos hk, if_pos he]
      exact List.Forall₂.cons ⟨hpair.1, hf e.2⟩ (ih tid ph f hf)
    · have he : ¬ e.1 = tid := fun hc => hk (hpair.1.trans hc)
      rw [if_neg hk, if_neg he]
      exact List.Forall₂.cons hpair (ih tid ph f hf)

theorem get_task_some_find {tm : TaskManager} {k : String} {t : Task}
    (h : tm.get_task k = some t) :
    ∃ p, tm.tasks.find? (fun q => q.1 = k) = some p ∧ p.1 = k ∧ p.2 = t := by
  unfold TaskManager.get_task at h
  cases hf : tm.tasks.find? (fun q => q.1 = k) with
  | none => rw [hf] at h; simp at h
  | some p =>
    rw [hf] at h
    exact ⟨p, rfl, by simpa using List.find?_some hf, by simpa using h⟩

theorem phaseOf_some_any {s : SysState} (hinv : SysInv s) {tid : String} {ph : BgPhase}
    (h : phaseOf s tid = some ph) :
    s.tm.tasks.any (fun p => p.1 = tid) = true := by
  unfold phaseOf at h
  cases hf : s.bg.find? (fun p => p.1 = tid) with
  | none => rw [hf] at h; simp at h
  | some b =>
    rcases forall2_find?_bg_to_task hinv.2 tid hf with ⟨e, he, _⟩
    rw [List.any_eq_true]
    exact ⟨e, List.mem_of_find?_eq_some he, by simpa using List.find?_some he⟩

theorem update_task_eq_map {tm : TaskManager} {tid : String}
    (hany : tm.tasks.any (fun p => p.1 = tid) = true)
    (st : String) (res err : Value) (now : Nat) :
    (tm.update_task tid st res err now).tasks =
      tm.tasks.map (fun p =>
        if p.1 = tid then (p.1, updatedRecord p.2 st res err now) else p) := by
  simp [TaskManager.update_task, hany]

/-- The dispatcher step relation preserves the invariant. -/
theorem sysInv_step {s s' : SysState} (hinv : SysInv s) (hstep : DStep s s') : SysInv s' := by
  cases hstep with
  | createIdea kw pc now =>
    refine ⟨create_task_goodState hinv.1 _ _ _, ?_⟩
    show List.Forall₂ Aligned
      (s.bg ++ [((s.tm.create_task ("generate_research_idea") (paramsOf kw pc) now).1,
        BgPhase.notStarted)])
      (s.tm.create_task ("generate_research_idea") (paramsOf kw pc) now).2.tasks
    rw [create_task_tasks_eq hinv.1]
    exact List.rel_append hinv.2
      (List.Forall₂.cons ⟨rfl, by simp [taskPhaseOk, newRecord]⟩ List.Forall₂.nil)
  | bgStart tid now hph =>
    have hany := phaseOf_some_any hinv hph
    refine ⟨update_task_goodState hinv.1 _ _ _ _ _, ?_⟩
    show List.Forall₂ Aligned (setPhase s.bg tid BgPhase.started)
      (s.tm.update_task tid ("running") Value.null Value.null now).tasks
    rw [update_task_eq_map hany]
    exact forall2_setPhase_update hinv.2 tid BgPhase.started
      (fun t => updatedRecord t ("running") Value.null Value.null now)
      (fun t => by simp [taskPhaseOk, updatedRecord])
  | bgComplete tid res now hph =>
    have hany := phaseOf_some_any hinv hph
    refine ⟨update_task_goodState hinv.1 _ _ _ _ _, ?_⟩
    show List.Forall₂ Aligned (setPhase s.bg tid BgPhase.finished)
      (s.tm.update_task tid ("completed") res Value.null now).tasks
    rw [update_task_eq_map hany]
    exact forall2_setPhase_update hinv.2 tid BgPhase.finished
      (fun t => updatedRecord t ("completed") res Value.null now)
      (fun t => by simp [taskPhaseOk, updatedRecord])
  | bgFail tid msg now hph =>
    have hany := phaseOf_some_any hinv hph
    refine ⟨update_task_goodState hinv.1 _ _ _ _ _, ?_⟩
    show List.Forall₂ Aligned (setPhase s.bg tid BgPhase.finished)
      (s.tm.update_task tid ("failed") Value.null (Value.str msg) now).tasks
    rw [update_task_eq_map hany]
    exact forall2_setPhase_update hinv.2 tid BgPhase.finished
      (fun t => updatedRecord t ("failed") Value.null (Value.str msg) now)
      (fun t => by simp [taskPhaseOk, updatedRecord])

/-- Every dispatcher-reachable state satisfies the invariant. -/
theorem reach_sysInv {s : SysState} (h : Reach s) : SysInv s := by
  induction h with
  | init => exact ⟨trivial, List.Forall₂.nil⟩
  | step _ hstep ih => exact sysInv_step ih hstep

/-- `create_task` keeps every record that `get_task` could already see. -/
theorem create_task_get_mono {tm : TaskManager} (hg : goodState tm)
    (ty : String) (ps : Value) (now : Nat) {k : String} {t : Task}
    (h : tm.get_task k = some t) : (tm.create_task ty ps now).2.get_task k = some t := by
  rcases get_task_some_find h with ⟨p, hfind, _, hsnd⟩
  show ((tm.create_task ty ps now).2.tasks.find? (fun q => q.1 = k)).map (fun q => q.2) = some t
  rw [create_task_tasks_eq hg, List.find?_append, hfind]
  simp [hsnd]

/-! Reachability under arbitrary TaskManager operations, and the
progress-status table. -/

/-- Registries reachable by any sequence of `create_task` and
`update_task` calls with arbitrary arguments, from the empty registry. -/
inductive TMReach : TaskManager → Prop where
  | init : TMReach ⟨[]⟩
  | create {tm : TaskManager} (ty : String) (ps : Value) (now : Nat) :
      TMReach tm → TMReach (tm.create_task ty ps now).2
  | update {tm : TaskManager} (tid st : String) (res err : Value) (now : Nat) :
      TMReach tm → TMReach (tm.update_task tid st res err now)

/-- The progress value demanded by the spec's table for each status. -/
def progressOk (t : Task) : Prop :=
  (t.status = "pending" → t.progress = 0) ∧
  (t.status = "running" → t.progress = 50) ∧
  (t.status = "completed" → t.progress = 100) ∧
  (t.status = "failed" → t.progress = 0)

theorem progressOk_newRecord (task_id ty : String) (ps : Value) (now : Nat) :
    progressOk (newRecord task_id ty ps now) := by
  refine ⟨fun _ => rfl, fun h => ?_, fun h => ?_, fun h => ?_⟩ <;> simp [newRecord] at h

theorem progressOk_updatedRecord (t : Task) (st : String) (res err : Value) (now : Nat) :
    progressOk (updatedRecord t st res err now) := by
  refine ⟨fun h => ?_, fun h => ?_, fun h => ?_, fun h => ?_⟩ <;>
    (have h' : st = _ := h; subst h'; rfl)

theorem mem_dictInsert {l : List (String × Task)} {k : String} {v : Task} {e : String × Task}
    (he : e ∈ dictInsert l k v) : e ∈ l ∨ e.2 = v := by
  unfold dictInsert at he
  by_cases h : l.any (fun p => p.1 = k) = true
  · rw [if_pos h] at he
    rcases List.mem_map.mp he with ⟨p, hp, hpe⟩
    by_cases hpk : p.1 = k
    · rw [if_pos hpk] at hpe
      right
      rw [← hpe]
    · rw [if_neg hpk] at hpe
      left
      exact hpe ▸ hp
  · rw [if_neg h] at he
    rcases List.mem_append.mp he with h1 | h1
    · left; exact h1
    · right
      have : e = (k, v) := by simpa using h1
      rw [this]

/-- Invariant under arbitrary operation sequences: the progress of every
stored record matches its status per the table. -/
theorem tmReach_progressOk {tm : TaskManager} (h : TMReach tm) :
    ∀ e ∈ tm.tasks, progressOk e.2 := by
  induction h with
  | init => intro e he; simp at he
  | @create tm ty ps now htm ih =>
    intro e he
    simp only [TaskManager.create_task] at he
    rcases mem_dictInsert he with h1 | h1
    · exact ih e h1
    · rw [h1]; exact progressOk_newRecord _ _ _ _
  | @update tm tid st res err now htm ih =>
    intro e he
    unfold TaskManager.update_task at he
    by_cases hany : tm.tasks.any (fun p => p.1 = tid) = true
    · rw [if_pos hany] at he
      rcases List.mem_map.mp he with ⟨p, hp, hpe⟩
      by_cases hpk : p.1 = tid
      · rw [if_pos hpk] at hpe
        rw [← hpe]
        exact progressOk_updatedRecord _ _ _ _ _
      · rw [if_neg hpk] at hpe
        exact hpe ▸ ih p hp
    · rw [if_neg hany] at he
      exact ih e he

/-! Sequences of `create_task` calls. -/

/-- One `create_task` call in a sequence: thread the registry state and
record the returned id. An op is (type, params, clock reading). -/
def createStep (acc : TaskManager × List String) (op : String × Value × Nat) :
    TaskManager × List String :=
  ((acc.1.create_task op.1 op.2.1 op.2.2).2,
   acc.2 ++ [(acc.1.create_task op.1 op.2.1 op.2.2).1])

/-- Run a sequence of `create_task` calls from the fresh server state,
collecting the returned ids in order. -/
def runCreates (ops : List (String × Value × Nat)) : TaskManager × List String :=
  ops.foldl createStep (⟨[]⟩, [])

theorem runCreates_inv : ∀ (ops : List (String × Value × Nat)) (tm : TaskManager)
    (ids : List String), goodState tm → tm.tasks.map Prod.fst = ids →
    goodState (List.foldl createStep (tm, ids) ops).1 ∧
    (List.foldl createStep (tm, ids) ops).1.tasks.map Prod.fst =
      (List.foldl createStep (tm, ids) ops).2 := by
  intro ops
  induction ops with
  | nil => intro tm ids h1 h2; exact ⟨h1, h2⟩
  | cons op rest ih =>
    intro tm ids h1 h2
    rw [List.foldl_cons]
    have hkeys : (tm.create_task op.1 op.2.1 op.2.2).2.tasks.map Prod.fst =
        ids ++ [(tm.create_task op.1 op.2.1 op.2.2).1] := by
      rw [create_task_tasks_eq h1]
      simp [h2]
    exact ih (createStep (tm, ids) op).1 (createStep (tm, ids) op).2
      (create_task_goodState h1 _ _ _) hkeys

theorem runCreates_ids_length : ∀ (ops : List (String × Value × Nat))
    (acc : TaskManager × List String),
    (List.foldl createStep acc ops).2.length = acc.2.length + ops.length := by
  intro ops
  induction ops with
  | nil => intro acc; simp
  | cons op rest ih =>
    intro acc
    rw [List.foldl_cons, ih]
    simp [createStep]
    omega

/-! Claim theorems. -/

/-- C1: for every sequence of `create_task` calls (each with any type,
params and clock reading), the returned ids are pairwise distinct, and
each call inserts a new record: the final registry is keyed exactly by
the returned ids in order and holds one record per call, so no call
overwrote an existing record. -/
theorem C1_create_task_ids_distinct (ops : List (String × Value × Nat)) :
    (runCreates ops).2.Nodup ∧
    (runCreates ops).1.tasks.map Prod.fst = (runCreates ops).2 ∧
    (runCreates ops).1.tasks.length = ops.length := by
  unfold runCreates
  have h := runCreates_inv ops ⟨[]⟩ [] trivial rfl
  have hlen := runCreates_ids_length ops (⟨[]⟩, [])
  refine ⟨?_, h.2, ?_⟩
  · have hnd := goodKeys_nodup 0 _ h.1
    rw [h.2] at hnd
    exact hnd
  · have h3 := congrArg List.length h.2
    rw [List.length_map] at h3
    simp only [List.length_nil] at hlen
    omega

/-- C3: after every sequence of TaskManager operations (`create_task` or
`update_task`, any arguments), every stored task record's progress
matches its status: pending has 0, running has 50, completed has 100,
failed has 0. -/
theorem C3_progress_matches_status {tm : TaskManager} (h : TMReach tm) :
    ∀ e ∈ tm.tasks,
      (e.2.status = "pending" → e.2.progress = 0) ∧
      (e.2.status = "running" → e.2.progress = 50) ∧
      (e.2.status = "completed" → e.2.progress = 100) ∧
      (e.2.status = "failed" → e.2.progress = 0) :=
  tmReach_progressOk h

/-- Witness for C3 at a concrete reachable registry. -/
theorem C3_progress_matches_status_witness :
    TMReach ((TaskManager.create_task ⟨[]⟩ ("generate_research_idea") Value.null 0).2.update_task
      (mkTaskId 1 0) ("running") Value.null Value.null 1) ∧
    ∀ e ∈ ((TaskManager.create_task ⟨[]⟩ ("generate_research_idea") Value.null 0).2.update_task
        (mkTaskId 1 0) ("running") Value.null Value.null 1).tasks,
      (e.2.status = "pending" → e.2.progress = 0) ∧
      (e.2.status = "running" → e.2.progress = 50) ∧
      (e.2.status = "completed" → e.2.progress = 100) ∧
      (e.2.status = "failed" → e.2.progress = 0) :=
  ⟨TMReach.update (mkTaskId 1 0) ("running") Value.null Value.null 1
      (TMReach.create ("generate_research_idea") Value.null 0 TMReach.init),
   C3_progress_matches_status
     (TMReach.update (mkTaskId 1 0) ("running") Value.null Value.null 1
       (TMReach.create ("generate_research_idea") Value.null 0 TMReach.init))⟩

/-- C5: `update_task` with an id not present in the registry, whatever
the status, result and error arguments, raises nothing, creates no task,
and leaves the whole registry unchanged. -/
theorem C5_update_task_unknown_id_noop {tm : TaskManager} {tid : String}
    (h : tm.get_task tid = none) (st : String) (res err : Value) (now : Nat) :
    tm.update_task tid st res err now = tm :=
  update_task_absent h st res err now

/-- Witness for C5 at a concrete registry and unknown id. -/
theorem C5_update_task_unknown_id_noop_witness :
    TaskManager.get_task ⟨[(("a"), newRecord ("a") ("t") Value.null 5)]⟩ ("b") = none ∧
    TaskManager.update_task ⟨[(("a"), newRecord ("a") ("t") Value.null 5)]⟩ ("b")
        ("completed") (Value.str ("R")) Value.null 7 =
      ⟨[(("a"), newRecord ("a") ("t") Value.null 5)]⟩ :=
  ⟨rfl, @C5_update_task_unknown_id_noop ⟨[(("a"), newRecord ("a") ("t") Value.null 5)]⟩ ("b")
    rfl ("completed") (Value.str ("R")) Value.null 7⟩

/-- C7: `create_task` returns an id under which a record with status
pending, progress 0, null result and error, and the given type and
params is stored; an immediate `get_task_status` on that id succeeds and
shows status "pending" and progress 0. -/
theorem C7_create_task_pending (tm : TaskManager) (ty : String) (ps : Value) (now : Nat) :
    (tm.create_task ty ps now).2.get_task (tm.create_task ty ps now).1 =
      some { id := (tm.create_task ty ps now).1, type := ty, status := "pending",
             params := ps, created_at := now, updated_at := now,
             result := Value.null, error := Value.null, progress := 0 } ∧
    (get_task_status (tm.create_task ty ps now).2 (tm.create_task ty ps now).1).success = true ∧
    ((get_task_status (tm.create_task ty ps now).2
        (tm.create_task ty ps now).1).task.getD []).lookup ("status") =
      some (Value.str ("pending")) ∧
    ((get_task_status (tm.create_task ty ps now).2
        (tm.create_task ty ps now).1).task.getD []).lookup ("progress") =
      some (Value.num 0) := by
  have h := create_task_get_new tm ty ps now
  refine ⟨h, ?_, ?_, ?_⟩
  · unfold get_task_status
    rw [h]
  · unfold get_task_status
    rw [h]
    rfl
  · unfold get_task_status
    rw [h]
    rfl

theorem phaseOf_some_get_task {s : SysState} (hinv : SysInv s) {u : String} {ph : BgPhase}
    (h : phaseOf s u = some ph) :
    ∃ tu, s.tm.get_task u = some tu ∧ taskPhaseOk ph tu := by
  unfold phaseOf at h
  cases hf : s.bg.find? (fun p => p.1 = u) with
  | none => rw [hf] at h; simp at h
  | some b =>
    rw [hf] at h
    rcases forall2_find?_bg_to_task hinv.2 u hf with ⟨e, he, hal⟩
    refine ⟨e.2, ?_, ?_⟩
    · show (s.tm.tasks.find? (fun p => p.1 = u)).map (fun p => p.2) = some e.2
      rw [he]
      rfl
    · have hb : b.2 = ph := by simpa using h
      exact hb ▸ hal.2

/-- C2 counterexample: over arbitrary sequences of TaskManager
operations the claim fails — a task whose status is "completed" is moved
back to "pending" by a later `update_task` call, so its status sequence
is not a prefix of pending → running → (completed | failed). -/
theorem C2_counterexample :
    ((((TaskManager.create_task ⟨[]⟩ ("generate_research_idea") Value.null 0).2.update_task
        (mkTaskId 1 0) ("completed") (Value.str ("R")) Value.null 1).get_task
        (mkTaskId 1 0)).map Task.status = some ("completed")) ∧
    (((((TaskManager.create_task ⟨[]⟩ ("generate_research_idea") Value.null 0).2.update_task
        (mkTaskId 1 0) ("completed") (Value.str ("R")) Value.null 1).update_task
        (mkTaskId 1 0) ("pending") Value.null Value.null 2).get_task
        (mkTaskId 1 0)).map Task.status = some ("pending")) :=
  ⟨rfl, rfl⟩

/-- C2 (amended): over dispatcher-driven operation sequences — task
creation via `generate_research_idea` and the `update_task` calls made by
`_generate_research_idea_async` in program order — every step either
leaves a task's status unchanged or advances it along
pending → running → (completed | failed); in particular no dispatcher
step moves a task out of completed or failed, so each task's status
sequence is a prefix of that chain. -/
theorem C2_status_prefix_dispatcher {s s' : SysState} (hs : Reach s) (hstep : DStep s s')
    {tid : String} {t t' : Task}
    (ht : s.tm.get_task tid = some t) (ht' : s'.tm.get_task tid = some t') :
    t'.status = t.status ∨
    (t.status = "pending" ∧ t'.status = "running") ∨
    (t.status = "running" ∧ (t'.status = "completed" ∨ t'.status = "failed")) := by
  have hinv := reach_sysInv hs
  cases hstep with
  | createIdea kw pc now =>
    have hmono := create_task_get_mono hinv.1 ("generate_research_idea")
      (paramsOf kw pc) now ht
    have ht'' : (s.tm.create_task ("generate_research_idea")
        (paramsOf kw pc) now).2.get_task tid = some t' := ht'
    rw [hmono] at ht''
    left
    rw [Option.some_inj.mp ht'']
  | bgStart u now hph =>
    by_cases hk : tid = u
    · subst hk
      rcases phaseOf_some_get_task hinv hph with ⟨tu, hget, hok⟩
      have hget' := hget
      rw [ht] at hget'
      have hteq : t = tu := Option.some_inj.mp hget'
      have ht'' : (s.tm.update_task tid ("running") Value.null Value.null now).get_task tid =
          some t' := ht'
      rw [update_task_get_found hget ("running") Value.null Value.null now] at ht''
      have ht'eq := Option.some_inj.mp ht''
      right; left
      refine ⟨?_, ?_⟩
      · rw [hteq]; exact hok.1
      · rw [← ht'eq]; rfl
    · have hfr := update_task_get_other s.tm u ("running") Value.null Value.null now tid hk
      have ht'' : (s.tm.update_task u ("running") Value.null Value.null now).get_task tid =
          some t' := ht'
      rw [hfr, ht] at ht''
      left
      rw [Option.some_inj.mp ht'']
  | bgComplete u res now hph =>
    by_cases hk : tid = u
    · subst hk
      rcases phaseOf_some_get_task hinv hph with ⟨tu, hget, hok⟩
      have hget' := hget
      rw [ht] at hget'
      have hteq : t = tu := Option.some_inj.mp hget'
      have ht'' : (s.tm.update_task tid ("completed") res Value.null now).get_task tid =
          some t' := ht'
      rw [update_task_get_found hget ("completed") res Value.null now] at ht''
      have ht'eq := Option.some_inj.mp ht''
      right; right
      refine ⟨?_, Or.inl ?_⟩
      · rw [hteq]; exact hok.1
      · rw [← ht'eq]; rfl
    · have hfr := update_task_get_other s.tm u ("completed") res Value.null now tid hk
      have ht'' : (s.tm.update_task u ("completed") res Value.null now).get_task tid =
          some t' := ht'
      rw [hfr, ht] at ht''
      left
      rw [Option.some_inj.mp ht'']
  | bgFail u msg now hph =>
    by_cases hk : tid = u
    · subst hk
      rcases phaseOf_some_get_task hinv hph with ⟨tu, hget, hok⟩
      have hget' := hget
      rw [ht] at hget'
      have hteq : t = tu := Option.some_inj.mp hget'
      have ht'' : (s.tm.update_task tid ("failed") Value.null (Value.str msg) now).get_task tid =
          some t' := ht'
      rw [update_task_get_found hget ("failed") Value.null (Value.str msg) now] at ht''
      have ht'eq := Option.some_inj.mp ht''
      right; right
      refine ⟨?_, Or.inr ?_⟩
      · rw [hteq]; exact hok.1
      · rw [← ht'eq]; rfl
    · have hfr := update_task_get_other s.tm u ("failed") Value.null (Value.str msg) now tid hk
      have ht'' : (s.tm.update_task u ("failed") Value.null (Value.str msg) now).get_task tid =
          some t' := ht'
      rw [hfr, ht] at ht''
      left
      rw [Option.some_inj.mp ht'']

/-- Witness for the amended C2: one dispatcher step from a concrete
reachable state, taking the first task from pending to running. -/
theorem C2_status_prefix_dispatcher_witness :
    (updatedRecord (newRecord (mkTaskId 1 0) ("generate_research_idea")
        (paramsOf ("k") 3) 0) ("running") Value.null Value.null 1).status =
      (newRecord (mkTaskId 1 0) ("generate_research_idea") (paramsOf ("k") 3) 0).status ∨
    ((newRecord (mkTaskId 1 0) ("generate_research_idea") (paramsOf ("k") 3) 0).status =
        "pending" ∧
      (updatedRecord (newRecord (mkTaskId 1 0) ("generate_research_idea")
        (paramsOf ("k") 3) 0) ("running") Value.null Value.null 1).status = "running") ∨
    ((newRecord (mkTaskId 1 0) ("generate_research_idea") (paramsOf ("k") 3) 0).status =
        "running" ∧
      ((updatedRecord (newRecord (mkTaskId 1 0) ("generate_research_idea")
          (paramsOf ("k") 3) 0) ("running") Value.null Value.null 1).status = "completed" ∨
        (updatedRecord (newRecord (mkTaskId 1 0) ("generate_research_idea")
          (paramsOf ("k") 3) 0) ("running") Value.null Value.null 1).status = "failed")) :=
  C2_status_prefix_dispatcher
    (Reach.step Reach.init (DStep.createIdea initState ("k") 3 0))
    (DStep.bgStart (dispatchCreate initState ("k") 3 0) (mkTaskId 1 0) 1 rfl)
    (rfl : (dispatchCreate initState ("k") 3 0).tm.get_task (mkTaskId 1 0) =
      some (newRecord (mkTaskId 1 0) ("generate_research_idea") (paramsOf ("k") 3) 0))
    (rfl : (doStart (dispatchCreate initState ("k") 3 0) (mkTaskId 1 0) 1).tm.get_task
        (mkTaskId 1 0) =
      some (updatedRecord (newRecord (mkTaskId 1 0) ("generate_research_idea")
        (paramsOf ("k") 3) 0) ("running") Value.null Value.null 1))

/-- C8: in every dispatcher-reachable state, every task record's result
is non-null only when its status is "completed", and its error is
non-null only when its status is "failed". -/
theorem C8_result_error_only_terminal {s : SysState} (hs : Reach s)
    {tid : String} {t : Task} (ht : s.tm.get_task tid = some t) :
    (t.result ≠ Value.null → t.status = "completed") ∧
    (t.error ≠ Value.null → t.status = "failed") := by
  have hinv := reach_sysInv hs
  rcases get_task_some_find ht with ⟨p, hfind, hp1, hp2⟩
  rcases forall2_find?_task_to_bg hinv.2 tid hfind with ⟨b, hbfind, hal⟩
  have hok := hal.2
  rw [hp2] at hok
  cases hb : b.2 <;> rw [hb] at hok
  · exact ⟨fun hr => absurd hok.2.1 hr, fun he => absurd hok.2.2 he⟩
  · exact ⟨fun hr => absurd hok.2.1 hr, fun he => absurd hok.2.2 he⟩
  · rcases hok with ⟨hc, hen⟩ | ⟨hf, hrn⟩
    · exact ⟨fun _ => hc, fun he => absurd hen he⟩
    · exact ⟨fun hr => absurd hrn hr, fun _ => hf⟩

/-- Witness for C8 at a concrete reachable state holding a completed task. -/
theorem C8_result_error_only_terminal_witness :
    ((updatedRecord (updatedRecord (newRecord (mkTaskId 1 0) ("generate_research_idea")
        (paramsOf ("k") 3) 0) ("running") Value.null Value.null 1)
        ("completed") (Value.str ("R")) Value.null 2).result ≠ Value.null →
      (updatedRecord (updatedRecord (newRecord (mkTaskId 1 0) ("generate_research_idea")
        (paramsOf ("k") 3) 0) ("running") Value.null Value.null 1)
        ("completed") (Value.str ("R")) Value.null 2).status = "completed") ∧
    ((updatedRecord (updatedRecord (newRecord (mkTaskId 1 0) ("generate_research_idea")
        (paramsOf ("k") 3) 0) ("running") Value.null Value.null 1)
        ("completed") (Value.str ("R")) Value.null 2).error ≠ Value.null →
      (updatedRecord (updatedRecord (newRecord (mkTaskId 1 0) ("generate_research_idea")
        (paramsOf ("k") 3) 0) ("running") Value.null Value.null 1)
        ("completed") (Value.str ("R")) Value.null 2).status = "failed") :=
  C8_result_error_only_terminal
    (Reach.step (Reach.step (Reach.step Reach.init
        (DStep.createIdea initState ("k") 3 0))
        (DStep.bgStart (dispatchCreate initState ("k") 3 0) (mkTaskId 1 0) 1 rfl))
      (DStep.bgComplete (doStart (dispatchCreate initState ("k") 3 0) (mkTaskId 1 0) 1)
        (mkTaskId 1 0) (Value.str ("R")) 2 rfl))
    (rfl : (doComplete (doStart (dispatchCreate initState ("k") 3 0) (mkTaskId 1 0) 1)
        (mkTaskId 1 0) (Value.str ("R")) 2).tm.get_task (mkTaskId 1 0) =
      some (updatedRecord (updatedRecord (newRecord (mkTaskId 1 0)
          ("generate_research_idea") (paramsOf ("k") 3) 0)
        ("running") Value.null Value.null 1) ("completed") (Value.str ("R")) Value.null 2))

/-- C4: synchronous tool calls (`search_papers`, `compress_paper_content`)
always return a response record and never propagate a collaborator
exception: on a raised exception or an empty/falsy collaborator result
the response is success false with a failure message and empty/default
data (`papers := []`, `compressed_content := null`), and on a non-empty
collaborator result it is success true with the data fields. -/
theorem C4_sync_tools_never_raise
    (sp : String → Int → Except String (List (List (String × Value))))
    (pc : String → String → String → Except String Value)
    (kw : String) (limit : Int) (title abstract content : String) :
    (∀ e, sp kw limit = Except.error e →
      search_papers sp kw limit =
        { success := false, message := "搜索论文时出错: " ++ e, papers := [] }) ∧
    (sp kw limit = Except.ok [] →
      search_papers sp kw limit =
        { success := false, message := "未找到相关论文", papers := [] }) ∧
    (∀ ps, sp kw limit = Except.ok ps → ps ≠ [] →
      search_papers sp kw limit =
        { success := true
          message := "成功搜索到 " ++ natStr (ps.map formatPaper).length ++ " 篇论文"
          papers := ps.map formatPaper }) ∧
    (∀ e, pc title abstract content = Except.error e →
      compress_paper_content pc title abstract content =
        { success := false, message := "压缩时出错: " ++ e,
          compressed_content := Value.null }) ∧
    (∀ r, pc title abstract content = Except.ok r → isFalsy r = true →
      compress_paper_content pc title abstract content =
        { success := false, message := "压缩失败", compressed_content := Value.null }) ∧
    (∀ r, pc title abstract content = Except.ok r → isFalsy r = false →
      compress_paper_content pc title abstract content =
        { success := true, message := "压缩完成", compressed_content := r }) := by
  refine ⟨?_, ?_, ?_, ?_, ?_, ?_⟩
  · intro e he
    unfold search_papers
    rw [he]
  · intro h
    unfold search_papers
    rw [h]
    rfl
  · intro ps hps hne
    unfold search_papers
    rw [hps]
    have hemp : ps.isEmpty = false := by
      cases ps with
      | nil => exact absurd rfl hne
      | cons a l => rfl
    simp [hemp]
  · intro e he
    unfold compress_paper_content
    rw [he]
  · intro r hr hf
    unfold compress_paper_content
    rw [hr]
    simp [hf]
  · intro r hr hf
    unfold compress_paper_content
    rw [hr]
    simp [hf]

/-- Witness for C4: a collaborator returning an empty list, one raising,
and one returning a falsy value, each at concrete inputs. -/
theorem C4_sync_tools_never_raise_witness :
    search_papers (fun _ _ => Except.ok []) ("black hole") 0 =
      { success := false, message := "未找到相关论文", papers := [] } ∧
    search_papers (fun _ _ => Except.error ("boom")) ("black hole") 5 =
      { success := false, message := "搜索论文时出错: boom", papers := [] } ∧
    compress_paper_content (fun _ _ _ => Except.ok Value.null) ("T") ("") ("") =
      { success := false, message := "压缩失败", compressed_content := Value.null } :=
  ⟨(C4_sync_tools_never_raise (fun _ _ => Except.ok [])
      (fun _ _ _ => Except.ok Value.null) ("black hole") 0 ("T") ("") ("")).2.1 rfl,
   (C4_sync_tools_never_raise (fun _ _ => Except.error ("boom"))
      (fun _ _ _ => Except.ok Value.null) ("black hole") 5 ("T") ("") ("")).1 ("boom") rfl,
   (C4_sync_tools_never_raise (fun _ _ => Except.ok [])
      (fun _ _ _ => Except.ok Value.null) ("black hole") 0 ("T") ("") ("")).2.2.2.2.1
     Value.null rfl rfl⟩

/-- C6 counterexample: after a task completes with result "R", the
`get_task_status` response succeeds and shows status "completed", but its
task object has no "result" key at all (lookup gives none), so it does
not show `result: R` as the claim states. -/
theorem C6_counterexample :
    (get_task_status ((TaskManager.create_task ⟨[]⟩ ("generate_research_idea")
        Value.null 0).2.update_task (mkTaskId 1 0) ("completed") (Value.str ("R"))
        Value.null 1) (mkTaskId 1 0)).success = true ∧
    ((get_task_status ((TaskManager.create_task ⟨[]⟩ ("generate_research_idea")
        Value.null 0).2.update_task (mkTaskId 1 0) ("completed") (Value.str ("R"))
        Value.null 1) (mkTaskId 1 0)).task.getD []).lookup ("status") =
      some (Value.str ("completed")) ∧
    ((get_task_status ((TaskManager.create_task ⟨[]⟩ ("generate_research_idea")
        Value.null 0).2.update_task (mkTaskId 1 0) ("completed") (Value.str ("R"))
        Value.null 1) (mkTaskId 1 0)).task.getD []).lookup ("result") = none :=
  ⟨rfl, rfl, rfl⟩

/-- C6 (amended): after `update_task(T, "completed", R)` on a present id,
`get_task_status(T)` returns success true with a task object showing
status "completed", progress 100 and error null; the stored record's
result is R, but the response's task object omits the result field
entirely. -/
theorem C6_completed_task_status {tm : TaskManager} {tid : String} {t : Task}
    (h : tm.get_task tid = some t) (r : Value) (now : Nat) :
    (get_task_status (tm.update_task tid ("completed") r Value.null now) tid).success =
      true ∧
    ((get_task_status (tm.update_task tid ("completed") r Value.null now)
        tid).task.getD []).lookup ("status") = some (Value.str ("completed")) ∧
    ((get_task_status (tm.update_task tid ("completed") r Value.null now)
        tid).task.getD []).lookup ("progress") = some (Value.num 100) ∧
    ((get_task_status (tm.update_task tid ("completed") r Value.null now)
        tid).task.getD []).lookup ("error") = some Value.null ∧
    ((get_task_status (tm.update_task tid ("completed") r Value.null now)
        tid).task.getD []).lookup ("result") = none ∧
    ((tm.update_task tid ("completed") r Value.null now).get_task tid).map Task.result =
      some r := by
  have hupd := update_task_get_found h ("completed") r Value.null now
  refine ⟨?_, ?_, ?_, ?_, ?_, ?_⟩
  · unfold get_task_status
    rw [hupd]
  · unfold get_task_status
    rw [hupd]
    rfl
  · unfold get_task_status
    rw [hupd]
    rfl
  · unfold get_task_status
    rw [hupd]
    rfl
  · unfold get_task_status
    rw [hupd]
    rfl
  · rw [hupd]
    rfl

/-- Witness for the amended C6 at a concrete registry. -/
theorem C6_completed_task_status_witness :
    (get_task_status ((TaskManager.create_task ⟨[]⟩ ("generate_research_idea")
        Value.null 0).2.update_task (mkTaskId 1 0) ("completed") (Value.str ("R"))
        Value.null 1) (mkTaskId 1 0)).success = true ∧
    ((get_task_status ((TaskManager.create_task ⟨[]⟩ ("generate_research_idea")
        Value.null 0).2.update_task (mkTaskId 1 0) ("completed") (Value.str ("R"))
        Value.null 1) (mkTaskId 1 0)).task.getD []).lookup ("progress") =
      some (Value.num 100) ∧
    (((TaskManager.create_task ⟨[]⟩ ("generate_research_idea") Value.null 0).2.update_task
        (mkTaskId 1 0) ("completed") (Value.str ("R")) Value.null 1).get_task
        (mkTaskId 1 0)).map Task.result = some (Value.str ("R")) := by
  have h := @C6_completed_task_status
    (TaskManager.create_task ⟨[]⟩ ("generate_research_idea") Value.null 0).2
    (mkTaskId 1 0)
    (newRecord (mkTaskId 1 0) ("generate_research_idea") Value.null 0)
    rfl (Value.str ("R")) 1
  exact ⟨h.1, h.2.2.1, h.2.2.2.2.2⟩

/-- C9: `error_stream_gen` yields exactly two frames and no more: first
the event frame whose JSON content is the localized operation-failed
assistant message, then the literal terminal frame. -/
theorem C9_error_stream_two_frames :
    error_stream_gen =
      ["data: \x7b\"choices\": [\x7b\"delta\": \x7b\"role\": \"assistant\", \"content\": \"当前操作无法完成，请稍后再试\"\x7d\x7d]\x7d\n\n",
       "data: [DONE]\n\n"] ∧
    error_stream_gen.length = 2 := by
  constructor
  · simp only [error_stream_gen, error_message, dumps, dumpsList, dumpsObj]
    rfl
  · rfl

/-- C10: `update_task` on id X leaves the record of every other id
unchanged (any registry); from a well-formed registry, `create_task`
leaves every pre-existing record unchanged and only appends the new id. -/
theorem C10_frame (tm : TaskManager) (tid st : String) (res err : Value) (now : Nat)
    (ty : String) (ps : Value) :
    (∀ k, k ≠ tid →
      (tm.update_task tid st res err now).get_task k = tm.get_task k) ∧
    (goodState tm →
      (∀ k t, tm.get_task k = some t →
        (tm.create_task ty ps now).2.get_task k = some t) ∧
      (tm.create_task ty ps now).2.tasks.map Prod.fst =
        tm.tasks.map Prod.fst ++ [(tm.create_task ty ps now).1]) := by
  refine ⟨fun k hk => update_task_get_other tm tid st res err now k hk,
    fun hg => ⟨fun k t h => create_task_get_mono hg ty ps now h, ?_⟩⟩
  rw [create_task_tasks_eq hg]
  simp

/-- Witness for C10 at a concrete one-task registry. -/
theorem C10_frame_witness :
    ((TaskManager.create_task ⟨[]⟩ ("t") Value.null 0).2.update_task ("b")
        ("completed") Value.null Value.null 9).get_task (mkTaskId 1 0) =
      (TaskManager.create_task ⟨[]⟩ ("t") Value.null 0).2.get_task (mkTaskId 1 0) ∧
    ((TaskManager.create_task ⟨[]⟩ ("t") Value.null 0).2.create_task ("u")
        Value.null 9).2.get_task (mkTaskId 1 0) =
      some (newRecord (mkTaskId 1 0) ("t") Value.null 0) := by
  have h := C10_frame (TaskManager.create_task ⟨[]⟩ ("t") Value.null 0).2
    ("b") ("completed") Value.null Value.null 9 ("u") Value.null
  refine ⟨h.1 (mkTaskId 1 0) (by decide), ?_⟩
  exact (h.2 ⟨⟨0, rfl⟩, trivial⟩).1 (mkTaskId 1 0)
    (newRecord (mkTaskId 1 0) ("t") Value.null 0) rfl

end SciSpark
